import Mathlib

/-!
Shallow embedding of the `slota_swapper` service (slotManager repository).

The persistent store (`users`, `events`, `swap_requests` tables) is modelled
as lists of records inside a `DB` structure.  Each HTTP handler in
`src/slota_swapper/routers/` becomes a pure function on `DB`: a handler that
can fail returns `Except ApiError α × DB`, where the returned `DB` is the
committed post-state (errors raised before commit leave the state unchanged,
matching the session rollback semantics of the source).  HTTP status codes
are mapped to the spec's error taxonomy: 404 ↦ NotFound, 403 ↦
PermissionDenied, 400 ↦ InvalidOperation, 500 ↦ InternalError, keeping the
exact `detail` strings of the source.  UUID identifiers are modelled as
naturals; uuid4 freshness of newly generated identifiers becomes an explicit
freshness premise on the transition relation.  Timestamps (`DateTime`,
`func.now()`) are modelled as integers passed in as the `now` argument.
-/

namespace SlotaSwapper

abbrev UserId := Nat
abbrev EventId := Nat
abbrev SwapId := Nat

/-- `EventStatusEnum` from `models/event.py`. -/
inductive EventStatusEnum where
  | BUSY
  | SWAPPABLE
  | SWAP_PENDING
deriving DecidableEq, Repr

/-- `SwapRequestStatusEnum` from `models/swap_request.py`. -/
inductive SwapRequestStatusEnum where
  | PENDING
  | ACCEPTED
  | REJECTED
deriving DecidableEq, Repr

/-- `User` model (identity and display name; the rest of the user row is
irrelevant to the negotiation engine). -/
structure User where
  id : UserId
  name : String
deriving DecidableEq, Repr

/-- `Event` model from `models/event.py` (a calendar slot). -/
structure Event where
  id : EventId
  title : String
  start_time : Int
  end_time : Int
  status : EventStatusEnum
  owner_id : UserId
deriving DecidableEq, Repr

/-- `SwapRequest` model from `models/swap_request.py`. -/
structure SwapRequest where
  id : SwapId
  requester_id : UserId
  offered_event_id : EventId
  requested_event_id : EventId
  status : SwapRequestStatusEnum
  created_at : Int
  updated_at : Int
deriving DecidableEq, Repr

/-- The persistent store: the three tables. -/
structure DB where
  users : List User
  events : List Event
  swaps : List SwapRequest
deriving DecidableEq, Repr

/-- Error taxonomy (spec §7) carrying the HTTPException `detail` string. -/
inductive ApiError where
  | NotFound (detail : String)
  | PermissionDenied (detail : String)
  | InvalidOperation (detail : String)
  | InternalError (detail : String)
deriving DecidableEq, Repr

/-- `db.query(Event).filter(Event.id == eid).first()`. -/
def findEvent (db : DB) (eid : EventId) : Option Event :=
  db.events.find? (fun e => e.id == eid)

/-- `db.query(Event).filter(Event.id == eid, Event.owner_id == u).first()`. -/
def findEventOwned (db : DB) (eid : EventId) (u : UserId) : Option Event :=
  db.events.find? (fun e => e.id == eid && e.owner_id == u)

/-- `db.query(SwapRequest).filter(SwapRequest.id == rid).first()`. -/
def findSwap (db : DB) (rid : SwapId) : Option SwapRequest :=
  db.swaps.find? (fun s => s.id == rid)

/-- `db.query(User).filter(User.id == uid).first()`. -/
def findUser (db : DB) (uid : UserId) : Option User :=
  db.users.find? (fun w => w.id == uid)

/-- `create_event` (`routers/events.py`): a new event is created with status
BUSY owned by the current user; `newId` stands for the uuid4 default. -/
def create_event (db : DB) (u : UserId) (title : String) (start_time end_time : Int)
    (newId : EventId) : Event × DB :=
  let event : Event :=
    { id := newId, title := title, start_time := start_time, end_time := end_time,
      status := .BUSY, owner_id := u }
  (event, { db with events := db.events ++ [event] })

/-- `get_event` (`routers/events.py`): lookup filtered by id AND owner; a
mismatch on either yields 404 "Event not found". -/
def get_event (db : DB) (u : UserId) (eid : EventId) : Except ApiError Event :=
  match findEventOwned db eid u with
  | none => .error (.NotFound "Event not found")
  | some e => .ok e

/-- `EventUpdate` pydantic schema (`schemas/event_schemas.py`): every field
optional. -/
structure EventUpdate where
  title : Option String := none
  start_time : Option Int := none
  end_time : Option Int := none
  status : Option EventStatusEnum := none
deriving DecidableEq, Repr

/-- The sequence of `if payload.x is not None:` assignments in
`update_event`. -/
def applyEventUpdate (p : EventUpdate) (e : Event) : Event :=
  let e1 := match p.title with
    | some t => { e with title := t }
    | none => e
  let e2 := match p.start_time with
    | some t => { e1 with start_time := t }
    | none => e1
  let e3 := match p.end_time with
    | some t => { e2 with end_time := t }
    | none => e2
  match p.status with
  | some st => { e3 with status := st }
  | none => e3

/-- `update_event` (`routers/events.py`): lookup filtered by id AND owner
(404 on miss), then the optional field assignments, then commit. -/
def update_event (db : DB) (u : UserId) (eid : EventId) (p : EventUpdate) :
    Except ApiError Event × DB :=
  match findEventOwned db eid u with
  | none => (.error (.NotFound "Event not found"), db)
  | some e =>
    let events2 := db.events.map
      (fun x => if x.id == eid && x.owner_id == u then applyEventUpdate p x else x)
    (.ok (applyEventUpdate p e), { db with events := events2 })

/-- `delete_event` (`routers/events.py`): lookup filtered by id AND owner
(404 on miss), then the row is deleted. -/
def delete_event (db : DB) (u : UserId) (eid : EventId) : Except ApiError Unit × DB :=
  match findEventOwned db eid u with
  | none => (.error (.NotFound "Event not found"), db)
  | some _ =>
    (.ok (), { db with events := db.events.filter (fun x => !(x.id == eid && x.owner_id == u)) })

/-- Comparator behind `order_by(Event.start_time.asc())` on the joined
(event, owner name) rows. -/
def slotOrder (a b : Event × String) : Prop := a.1.start_time ≤ b.1.start_time

instance : DecidableRel slotOrder :=
  fun a b => inferInstanceAs (Decidable (a.1.start_time ≤ b.1.start_time))

instance : IsTotal (Event × String) slotOrder := ⟨fun a b => Int.le_total a.1.start_time b.1.start_time⟩

instance : IsTrans (Event × String) slotOrder := ⟨fun _ _ _ h1 h2 => le_trans h1 h2⟩

/-- `list_swappable_slots` (`routers/swaps.py`): select events joined with
their owner row, keep SWAPPABLE events not owned by the current user, order
by start time ascending.  The inner join is the `filterMap` through
`findUser`. -/
def list_swappable_slots (db : DB) (u : UserId) : List (Event × String) :=
  List.insertionSort slotOrder
    ((db.events.filter (fun e => e.status == .SWAPPABLE && e.owner_id != u)).filterMap
      (fun e => (findUser db e.owner_id).map (fun w => (e, w.name))))

/-- `request_swap` (`routers/swaps.py`), checks in source order; `newId`
stands for the uuid4 default of the new request, `now` for `func.now()`. -/
def request_swap (db : DB) (u : UserId) (my_slot_id their_slot_id : EventId)
    (newId : SwapId) (now : Int) : Except ApiError SwapRequest × DB :=
  match findEvent db my_slot_id with
  | none => (.error (.NotFound "My slot not found"), db)
  | some my_slot =>
    match findEvent db their_slot_id with
    | none => (.error (.NotFound "Their slot not found"), db)
    | some their_slot =>
      if my_slot.owner_id ≠ u then
        (.error (.PermissionDenied "You do not own the offered slot"), db)
      else if their_slot.owner_id = u then
        (.error (.InvalidOperation "Cannot request swap with your own slot"), db)
      else if my_slot.status ≠ .SWAPPABLE then
        (.error (.InvalidOperation "Your slot is not swappable"), db)
      else if their_slot.status ≠ .SWAPPABLE then
        (.error (.InvalidOperation "Requested slot is not swappable"), db)
      else
        let swap : SwapRequest :=
          { id := newId, requester_id := u, offered_event_id := my_slot.id,
            requested_event_id := their_slot.id, status := .PENDING,
            created_at := now, updated_at := now }
        let events2 := db.events.map (fun e =>
          if e.id == my_slot.id || e.id == their_slot.id then
            { e with status := EventStatusEnum.SWAP_PENDING }
          else e)
        (.ok swap, { db with events := events2, swaps := db.swaps ++ [swap] })

/-- Per-row effect of `respond_to_swap` on the events table, given the
offered event `O` and requested event `Q` loaded by the handler: accepting
exchanges the two `owner_id`s and sets both statuses to BUSY; rejecting
reverts each slot currently in SWAP_PENDING back to SWAPPABLE (guarded
per-slot); every other row is untouched. -/
def respondSlot (accepted : Bool) (O Q : Event) (e : Event) : Event :=
  if e.id == O.id then
    (if accepted then { O with owner_id := Q.owner_id, status := EventStatusEnum.BUSY }
     else if O.status = .SWAP_PENDING then { O with status := EventStatusEnum.SWAPPABLE }
     else O)
  else if e.id == Q.id then
    (if accepted then { Q with owner_id := O.owner_id, status := EventStatusEnum.BUSY }
     else if Q.status = .SWAP_PENDING then { Q with status := EventStatusEnum.SWAPPABLE }
     else Q)
  else e

/-- Per-row effect of `respond_to_swap` on the swap_requests table: the
request with the given id moves to ACCEPTED or REJECTED and its
`updated_at` is refreshed (`onupdate=func.now()`). -/
def respondSwapEntry (request_id : SwapId) (accepted : Bool) (now : Int)
    (s : SwapRequest) : SwapRequest :=
  if s.id == request_id then
    { s with status := if accepted then .ACCEPTED else .REJECTED, updated_at := now }
  else s

/-- `respond_to_swap` (`routers/swaps.py`), checks in source order.  The
accept branch exchanges the two `owner_id`s and sets both statuses to BUSY;
the reject branch reverts each slot currently in SWAP_PENDING back to
SWAPPABLE.  `now` models the `onupdate=func.now()` column default. -/
def respond_to_swap (db : DB) (u : UserId) (request_id : SwapId) (accepted : Bool)
    (now : Int) : Except ApiError SwapRequest × DB :=
  match findSwap db request_id with
  | none => (.error (.NotFound "Swap request not found"), db)
  | some swap =>
    match findEvent db swap.offered_event_id, findEvent db swap.requested_event_id with
    | some offered_event, some requested_event =>
      if requested_event.owner_id ≠ u then
        (.error (.PermissionDenied "Not authorized to respond to this request"), db)
      else if swap.status ≠ .PENDING then
        (.error (.InvalidOperation "Swap request already processed"), db)
      else
        let events2 := db.events.map (respondSlot accepted offered_event requested_event)
        let swaps2 := db.swaps.map (respondSwapEntry request_id accepted now)
        (.ok { swap with status := if accepted then .ACCEPTED else .REJECTED,
                         updated_at := now },
         { db with events := events2, swaps := swaps2 })
    | _, _ => (.error (.NotFound "Related events not found"), db)

/-- One row of the joined result of the two listing endpoints: the request
with its offered event, requested event and requester resolved. -/
structure SwapRow where
  swap : SwapRequest
  offered_event : Event
  requested_event : Event
  requester : User
deriving DecidableEq, Repr

/-- The three inner joins of `list_incoming_requests` /
`list_outgoing_requests`: a swap contributes a row only when both events and
the requester row exist. -/
def joinSwap (db : DB) (s : SwapRequest) : Option SwapRow :=
  match findEvent db s.offered_event_id, findEvent db s.requested_event_id,
        findUser db s.requester_id with
  | some o, some r, some w =>
    some { swap := s, offered_event := o, requested_event := r, requester := w }
  | _, _, _ => none

/-- Comparator behind `order_by(SwapRequest.created_at.desc())`. -/
def createdDesc (a b : SwapRow) : Prop := b.swap.created_at ≤ a.swap.created_at

instance : DecidableRel createdDesc :=
  fun a b => inferInstanceAs (Decidable (b.swap.created_at ≤ a.swap.created_at))

instance : IsTotal SwapRow createdDesc := ⟨fun a b => Int.le_total b.swap.created_at a.swap.created_at⟩

instance : IsTrans SwapRow createdDesc := ⟨fun _ _ _ h1 h2 => le_trans h2 h1⟩

/-- `list_incoming_requests` (`routers/swaps.py`): joined rows with status
PENDING whose requested event is owned by the current user, ordered by
creation time descending. -/
def list_incoming_requests (db : DB) (u : UserId) : List SwapRow :=
  List.insertionSort createdDesc
    ((db.swaps.filterMap (joinSwap db)).filter
      (fun row => row.swap.status == .PENDING && row.requested_event.owner_id == u))

/-- `list_outgoing_requests` (`routers/swaps.py`): joined rows whose
requester is the current user (any status), ordered by creation time
descending. -/
def list_outgoing_requests (db : DB) (u : UserId) : List SwapRow :=
  List.insertionSort createdDesc
    ((db.swaps.filterMap (joinSwap db)).filter (fun row => row.swap.requester_id == u))

/-- Number of PENDING swap requests that reference the event `eid` as their
offered or requested side. -/
def countPending (db : DB) (eid : EventId) : Nat :=
  (db.swaps.filter (fun s =>
    s.status == .PENDING && (s.offered_event_id == eid || s.requested_event_id == eid))).length

/-- The spec's slot invariant: every event id is a side of at most one
outstanding (PENDING) swap request. -/
def PendingUnique (db : DB) : Prop := ∀ eid, countPending db eid ≤ 1

/-- Strengthening used for the induction: every existing event that is a side
of a PENDING request carries the SWAP_PENDING status. -/
def PendingMarked (db : DB) : Prop :=
  ∀ s ∈ db.swaps, s.status = .PENDING →
    ∀ e ∈ db.events, (e.id = s.offered_event_id ∨ e.id = s.requested_event_id) →
      e.status = .SWAP_PENDING

/-- Inductive invariant of the transition system. -/
def Inv (db : DB) : Prop := PendingUnique db ∧ PendingMarked db

/-- uuid4 freshness of a newly generated event id: unused by every stored
event and unreferenced by every stored swap request. -/
def FreshEventId (db : DB) (eid : EventId) : Prop :=
  (∀ e ∈ db.events, e.id ≠ eid) ∧
  ∀ s ∈ db.swaps, s.offered_event_id ≠ eid ∧ s.requested_event_id ≠ eid

instance (db : DB) (eid : EventId) : Decidable (FreshEventId db eid) :=
  inferInstanceAs (Decidable ((∀ e ∈ db.events, e.id ≠ eid) ∧
    ∀ s ∈ db.swaps, s.offered_event_id ≠ eid ∧ s.requested_event_id ≠ eid))

/-- uuid4 freshness of a newly generated swap request id. -/
def FreshSwapId (db : DB) (rid : SwapId) : Prop := ∀ s ∈ db.swaps, s.id ≠ rid

instance (db : DB) (rid : SwapId) : Decidable (FreshSwapId db rid) :=
  inferInstanceAs (Decidable (∀ s ∈ db.swaps, s.id ≠ rid))

/-- A direct event update that never rewrites the status of a slot currently
in SWAP_PENDING (the restriction under which the one-pending-negotiation
invariant is provable; the code itself does not impose it). -/
def SafeStatusUpdate (db : DB) (eid : EventId) (p : EventUpdate) : Prop :=
  p.status = none ∨ ∀ e ∈ db.events, e.id = eid → e.status ≠ .SWAP_PENDING

instance (db : DB) (eid : EventId) (p : EventUpdate) : Decidable (SafeStatusUpdate db eid p) :=
  inferInstanceAs (Decidable (p.status = none ∨
    ∀ e ∈ db.events, e.id = eid → e.status ≠ .SWAP_PENDING))

/-- Whether a handler result is a success. -/
def exOk {α : Type} : Except ApiError α → Bool
  | .ok _ => true
  | .error _ => false

/-- One successful invocation of a state-changing public handler.  When
`safe` is `true`, direct event updates are restricted by `SafeStatusUpdate`;
when `safe` is `false` the relation is exactly what the code allows. -/
inductive Step (safe : Bool) : DB → DB → Prop where
  | createEvent (db : DB) (u : UserId) (title : String) (st en : Int) (nid : EventId)
      (hfresh : FreshEventId db nid) :
      Step safe db (create_event db u title st en nid).2
  | updateEvent (db : DB) (u : UserId) (eid : EventId) (p : EventUpdate)
      (hsafe : safe = true → SafeStatusUpdate db eid p)
      (hok : exOk (update_event db u eid p).1 = true) :
      Step safe db (update_event db u eid p).2
  | deleteEvent (db : DB) (u : UserId) (eid : EventId)
      (hok : exOk (delete_event db u eid).1 = true) :
      Step safe db (delete_event db u eid).2
  | requestSwap (db : DB) (u : UserId) (a b : EventId) (nid : SwapId) (now : Int)
      (hfresh : FreshSwapId db nid)
      (hok : exOk (request_swap db u a b nid now).1 = true) :
      Step safe db (request_swap db u a b nid now).2
  | respondSwap (db : DB) (u : UserId) (rid : SwapId) (acc : Bool) (now : Int)
      (hok : exOk (respond_to_swap db u rid acc now).1 = true) :
      Step safe db (respond_to_swap db u rid acc now).2

/-- A fresh store: a user table and no events or swap requests yet. -/
def DB.init (us : List User) : DB := { users := us, events := [], swaps := [] }

/-- Reachability through the public state-changing operations. -/
def Reachable (safe : Bool) (db0 db : DB) : Prop :=
  Relation.ReflTransGen (Step safe) db0 db

/-- Looking an element up by key in a list mapped through a key-preserving
function is the lookup in the original list, mapped. -/
theorem find?_map_key {α : Type} (key : α → Nat) (g : α → α)
    (hg : ∀ x, key (g x) = key x) (l : List α) (i : Nat) :
    (l.map g).find? (fun x => key x == i) = (l.find? (fun x => key x == i)).map g := by
  rw [List.find?_map]
  have hpred : ((fun x => key x == i) ∘ g) = fun x => key x == i := by
    funext x
    simp [Function.comp, hg]
  rw [hpred]

/-- Mapping a function that can only falsify the filter predicate does not
increase the filtered length. -/
theorem length_filter_map_le {α : Type} (g : α → α) (p : α → Bool)
    (h : ∀ x, p (g x) = true → p x = true) (l : List α) :
    ((l.map g).filter p).length ≤ (l.filter p).length := by
  induction l with
  | nil => simp
  | cons a t ih =>
    simp only [List.map_cons, List.filter_cons]
    by_cases hga : p (g a) = true
    · rw [hga, h a hga]
      simpa using ih
    · rw [Bool.not_eq_true] at hga
      rw [hga]
      cases hpa : p a
      · simpa using ih
      · simp only [List.length_cons]
        exact Nat.le_succ_of_le ih

/-- Two distinct members force length at least two. -/
theorem two_le_length_of_mem {α : Type} {a b : α} {l : List α}
    (ha : a ∈ l) (hb : b ∈ l) (hab : a ≠ b) : 2 ≤ l.length := by
  induction l with
  | nil => cases ha
  | cons c t ih =>
    rcases List.mem_cons.mp ha with rfl | hat
    · have hbt : b ∈ t := by
        rcases List.mem_cons.mp hb with rfl | hbt
        · exact absurd rfl hab
        · exact hbt
      have : 0 < t.length := List.length_pos.mpr (List.ne_nil_of_mem hbt)
      simp only [List.length_cons]
      omega
    · have : 0 < t.length := List.length_pos.mpr (List.ne_nil_of_mem hat)
      simp only [List.length_cons]
      omega

/-- `applyEventUpdate` never changes the event id. -/
theorem applyEventUpdate_id (p : EventUpdate) (e : Event) :
    (applyEventUpdate p e).id = e.id := by
  unfold applyEventUpdate
  cases p.title <;> cases p.start_time <;> cases p.end_time <;> cases p.status <;> rfl

/-- `applyEventUpdate` never changes the owner. -/
theorem applyEventUpdate_owner (p : EventUpdate) (e : Event) :
    (applyEventUpdate p e).owner_id = e.owner_id := by
  unfold applyEventUpdate
  cases p.title <;> cases p.start_time <;> cases p.end_time <;> cases p.status <;> rfl

/-- The status after `applyEventUpdate`: the payload status when present,
the old status otherwise. -/
theorem applyEventUpdate_status (p : EventUpdate) (e : Event) :
    (applyEventUpdate p e).status = (p.status.getD e.status) := by
  unfold applyEventUpdate
  cases p.title <;> cases p.start_time <;> cases p.end_time <;> cases p.status <;> rfl

/-- Success inversion for `update_event`: the filtered lookup hit and the
post-state applies the payload to the matching rows. -/
theorem update_event_ok {db : DB} {u : UserId} {eid : EventId} {p : EventUpdate}
    (h : exOk (update_event db u eid p).1 = true) :
    ∃ e, findEventOwned db eid u = some e ∧
      (update_event db u eid p).2 =
        { db with events := db.events.map (fun x => if x.id == eid && x.owner_id == u then applyEventUpdate p x else x) } := by
  rcases he : findEventOwned db eid u with _ | e
  · simp [update_event, he, exOk] at h
  · exact ⟨e, rfl, by simp only [update_event, he]⟩

/-- Success inversion for `delete_event`: the filtered lookup hit and the
post-state removes the matching rows. -/
theorem delete_event_ok {db : DB} {u : UserId} {eid : EventId}
    (h : exOk (delete_event db u eid).1 = true) :
    ∃ e, findEventOwned db eid u = some e ∧
      (delete_event db u eid).2 =
        { db with events := db.events.filter (fun x => !(x.id == eid && x.owner_id == u)) } := by
  rcases he : findEventOwned db eid u with _ | e
  · simp [delete_event, he, exOk] at h
  · exact ⟨e, rfl, by simp only [delete_event, he]⟩

/-- Success inversion for `request_swap`: both lookups hit, all four guards
passed, and the post-state appends a PENDING request and marks both slots
SWAP_PENDING. -/
theorem request_swap_ok {db : DB} {u : UserId} {a b : EventId} {nid : SwapId} {now : Int}
    (h : exOk (request_swap db u a b nid now).1 = true) :
    ∃ A B, findEvent db a = some A ∧ findEvent db b = some B ∧
      A.owner_id = u ∧ B.owner_id ≠ u ∧ A.status = .SWAPPABLE ∧ B.status = .SWAPPABLE ∧
      (request_swap db u a b nid now).1 =
        .ok { id := nid, requester_id := u, offered_event_id := A.id,
              requested_event_id := B.id, status := .PENDING,
              created_at := now, updated_at := now } ∧
      (request_swap db u a b nid now).2 =
        { db with
          events := db.events.map (fun e =>
            if e.id == A.id || e.id == B.id then
              { e with status := EventStatusEnum.SWAP_PENDING }
            else e),
          swaps := db.swaps ++
            [{ id := nid, requester_id := u, offered_event_id := A.id,
               requested_event_id := B.id, status := .PENDING,
               created_at := now, updated_at := now }] } := by
  rcases hA : findEvent db a with _ | A
  · simp [request_swap, hA, exOk] at h
  · rcases hB : findEvent db b with _ | B
    · simp [request_swap, hA, hB, exOk] at h
    · simp only [request_swap, hA, hB] at h
      by_cases h1 : A.owner_id ≠ u
      · simp [h1, exOk] at h
      · by_cases h2 : B.owner_id = u
        · simp [h1, h2, exOk] at h
        · by_cases h3 : A.status ≠ EventStatusEnum.SWAPPABLE
          · simp [h1, h2, h3, exOk] at h
          · by_cases h4 : B.status ≠ EventStatusEnum.SWAPPABLE
            · simp [h1, h2, h3, h4, exOk] at h
            · push_neg at h1 h3 h4
              exact ⟨A, B, rfl, rfl, h1, h2, h3, h4,
                by simp only [request_swap, hA, hB]; simp [h1, h2, h3, h4],
                by simp only [request_swap, hA, hB]; simp [h1, h2, h3, h4]⟩

/-- Success inversion for `respond_to_swap`: the request and both events
were found PENDING with the caller owning the requested slot, and the
post-state performs the accept or reject transition. -/
theorem respond_to_swap_ok {db : DB} {u : UserId} {rid : SwapId} {acc : Bool} {now : Int}
    (h : exOk (respond_to_swap db u rid acc now).1 = true) :
    ∃ R O Q, findSwap db rid = some R ∧
      findEvent db R.offered_event_id = some O ∧
      findEvent db R.requested_event_id = some Q ∧
      Q.owner_id = u ∧ R.status = .PENDING ∧
      (respond_to_swap db u rid acc now).1 =
        .ok { R with status := if acc then .ACCEPTED else .REJECTED, updated_at := now } ∧
      (respond_to_swap db u rid acc now).2 =
        { db with
          events := db.events.map (respondSlot acc O Q),
          swaps := db.swaps.map (respondSwapEntry rid acc now) } := by
  rcases hR : findSwap db rid with _ | R
  · simp [respond_to_swap, hR, exOk] at h
  · rcases hO : findEvent db R.offered_event_id with _ | O
    · simp [respond_to_swap, hR, hO, exOk] at h
    · rcases hQ : findEvent db R.requested_event_id with _ | Q
      · simp [respond_to_swap, hR, hO, hQ, exOk] at h
      · simp only [respond_to_swap, hR, hO, hQ] at h
        by_cases h1 : Q.owner_id ≠ u
        · simp [h1, exOk] at h
        · by_cases h2 : R.status ≠ SwapRequestStatusEnum.PENDING
          · simp [h1, h2, exOk] at h
          · push_neg at h1 h2
            exact ⟨R, O, Q, rfl, hO, hQ, h1, h2,
              by simp only [respond_to_swap, hR, hO, hQ]; simp [h1, h2],
              by simp only [respond_to_swap, hR, hO, hQ]; simp [h1, h2]⟩

/-- Creating an event (fresh uuid) preserves the invariant. -/
theorem inv_createEvent {db : DB} {u : UserId} {t : String} {st en : Int} {nid : EventId}
    (hfresh : FreshEventId db nid) (hinv : Inv db) :
    Inv (create_event db u t st en nid).2 := by
  obtain ⟨hc, hm⟩ := hinv
  constructor
  · intro i
    simpa [countPending, create_event] using hc i
  · intro s hs hp e he ht
    simp only [create_event] at hs he
    rcases List.mem_append.mp he with he1 | he2
    · exact hm s hs hp e he1 ht
    · exfalso
      have hid : e.id = nid := by
        rcases List.mem_singleton.mp he2 with rfl
        rfl
      rcases ht with ht | ht
      · exact (hfresh.2 s hs).1 (by rw [← ht]; exact hid)
      · exact (hfresh.2 s hs).2 (by rw [← ht]; exact hid)

/-- A successful `update_event` that never rewrites the status of a
SWAP_PENDING slot preserves the invariant. -/
theorem inv_updateEvent {db : DB} {u : UserId} {eid : EventId} {p : EventUpdate}
    (hsafe : SafeStatusUpdate db eid p)
    (hok : exOk (update_event db u eid p).1 = true) (hinv : Inv db) :
    Inv (update_event db u eid p).2 := by
  obtain ⟨e0, he0, hdb⟩ := update_event_ok hok
  rw [hdb]
  obtain ⟨hc, hm⟩ := hinv
  constructor
  · intro i
    simpa [countPending] using hc i
  · intro s hs hp x hx ht
    simp only at hs
    rcases List.mem_map.mp hx with ⟨e, he, rfl⟩
    by_cases hcond : (e.id == eid && e.owner_id == u) = true
    · rw [if_pos hcond] at ht ⊢
      have hid : (applyEventUpdate p e).id = e.id := applyEventUpdate_id p e
      rw [hid] at ht
      have hstat : e.status = .SWAP_PENDING := hm s hs hp e he ht
      rcases hsafe with hnone | hguard
      · rw [applyEventUpdate_status, hnone]
        exact hstat
      · exfalso
        have heid : e.id = eid := by
          have h5 := (Bool.and_eq_true _ _).mp hcond
          exact beq_iff_eq.mp h5.1
        exact hguard e he heid hstat
    · rw [if_neg hcond] at ht ⊢
      exact hm s hs hp e he ht

/-- A successful `delete_event` preserves the invariant. -/
theorem inv_deleteEvent {db : DB} {u : UserId} {eid : EventId}
    (hok : exOk (delete_event db u eid).1 = true) (hinv : Inv db) :
    Inv (delete_event db u eid).2 := by
  obtain ⟨e0, he0, hdb⟩ := delete_event_ok hok
  rw [hdb]
  obtain ⟨hc, hm⟩ := hinv
  constructor
  · intro i
    simpa [countPending] using hc i
  · intro s hs hp x hx ht
    exact hm s hs hp x (List.mem_of_mem_filter hx) ht

/-- A successful `request_swap` (fresh uuid for the new request) preserves
the invariant: both slots were SWAPPABLE, hence by `PendingMarked` they were
sides of no pending request, and the new request is their only one. -/
theorem inv_requestSwap {db : DB} {u : UserId} {a b : EventId} {nid : SwapId} {now : Int}
    (hok : exOk (request_swap db u a b nid now).1 = true) (hinv : Inv db) :
    Inv (request_swap db u a b nid now).2 := by
  obtain ⟨A, B, hA, hB, hAo, hBo, hAs, hBs, hres, hdb⟩ := request_swap_ok hok
  rw [hdb]
  obtain ⟨hc, hm⟩ := hinv
  have hAmem : A ∈ db.events := List.mem_of_find?_eq_some hA
  have hBmem : B ∈ db.events := List.mem_of_find?_eq_some hB
  have hnotouch : ∀ s ∈ db.swaps, s.status = .PENDING →
      s.offered_event_id ≠ A.id ∧ s.requested_event_id ≠ A.id ∧
      s.offered_event_id ≠ B.id ∧ s.requested_event_id ≠ B.id := by
    intro s hs hp
    refine ⟨fun heq => ?_, fun heq => ?_, fun heq => ?_, fun heq => ?_⟩
    · have h5 := hm s hs hp A hAmem (Or.inl heq.symm)
      rw [hAs] at h5
      simp at h5
    · have h5 := hm s hs hp A hAmem (Or.inr heq.symm)
      rw [hAs] at h5
      simp at h5
    · have h5 := hm s hs hp B hBmem (Or.inl heq.symm)
      rw [hBs] at h5
      simp at h5
    · have h5 := hm s hs hp B hBmem (Or.inr heq.symm)
      rw [hBs] at h5
      simp at h5
  constructor
  · intro i
    simp only [countPending, List.filter_append, List.length_append]
    by_cases hi : A.id = i ∨ B.id = i
    · have hnil : db.swaps.filter (fun s =>
          s.status == SwapRequestStatusEnum.PENDING &&
            (s.offered_event_id == i || s.requested_event_id == i)) = [] := by
        rw [List.filter_eq_nil_iff]
        intro s hs hps
        rw [Bool.and_eq_true] at hps
        have hp : s.status = .PENDING := by
          have := hps.1
          simpa using this
        obtain ⟨n1, n2, n3, n4⟩ := hnotouch s hs hp
        rcases hi with rfl | rfl
        · rcases Bool.or_eq_true _ _ |>.mp hps.2 with hside | hside
          · exact n1 (by simpa using hside)
          · exact n2 (by simpa using hside)
        · rcases Bool.or_eq_true _ _ |>.mp hps.2 with hside | hside
          · exact n3 (by simpa using hside)
          · exact n4 (by simpa using hside)
      rw [hnil]
      simp [List.filter]
      split <;> simp
    · push_neg at hi
      have hnew : db.swaps.filter (fun s =>
            s.status == SwapRequestStatusEnum.PENDING &&
              (s.offered_event_id == i || s.requested_event_id == i)) =
          (db.swaps.filter (fun s =>
            s.status == SwapRequestStatusEnum.PENDING &&
              (s.offered_event_id == i || s.requested_event_id == i))) := rfl
      have htail : List.filter (fun s =>
          s.status == SwapRequestStatusEnum.PENDING &&
            (s.offered_event_id == i || s.requested_event_id == i))
          [({ id := nid, requester_id := u, offered_event_id := A.id,
              requested_event_id := B.id, status := .PENDING,
              created_at := now, updated_at := now } : SwapRequest)] = [] := by
        have h1 : (A.id == i) = false := beq_eq_false_iff_ne.mpr hi.1
        have h2 : (B.id == i) = false := beq_eq_false_iff_ne.mpr hi.2
        simp [List.filter, h1, h2]
      rw [htail]
      simpa [countPending] using hc i
  · intro s hs hp x hx ht
    simp only at hs
    rcases List.mem_map.mp hx with ⟨e, he, rfl⟩
    by_cases hcond : (e.id == A.id || e.id == B.id) = true
    · rw [if_pos hcond]
    · rw [if_neg hcond] at ht ⊢
      rcases List.mem_append.mp hs with hs1 | hs2
      · exact hm s hs1 hp e he ht
      · exfalso
        rcases List.mem_singleton.mp hs2 with rfl
        rw [Bool.or_eq_true] at hcond
        push_neg at hcond
        rcases ht with ht | ht
        · exact hcond.1 (by simpa using ht)
        · exact hcond.2 (by simpa using ht)

/-- `respondSlot` never changes an event id. -/
theorem respondSlot_id (acc : Bool) (O Q e : Event) : (respondSlot acc O Q e).id = e.id := by
  unfold respondSlot
  by_cases h1 : (e.id == O.id) = true
  · rw [if_pos h1]
    have h3 := beq_iff_eq.mp h1
    split_ifs <;> simp [h3]
  · rw [if_neg h1]
    by_cases h2 : (e.id == Q.id) = true
    · rw [if_pos h2]
      have h3 := beq_iff_eq.mp h2
      split_ifs <;> simp [h3]
    · rw [if_neg h2]

/-- An event matching neither side of the responded request is untouched. -/
theorem respondSlot_other {acc : Bool} {O Q e : Event}
    (h1 : (e.id == O.id) = false) (h2 : (e.id == Q.id) = false) :
    respondSlot acc O Q e = e := by
  simp [respondSlot, h1, h2]

/-- A swap entry that is still PENDING after `respondSwapEntry` was not the
responded request and is unchanged. -/
theorem respondSwapEntry_pending {rid : SwapId} {acc : Bool} {now : Int} {s : SwapRequest}
    (h : (respondSwapEntry rid acc now s).status = .PENDING) :
    respondSwapEntry rid acc now s = s ∧ (s.id == rid) = false := by
  by_cases hs : (s.id == rid) = true
  · exfalso
    unfold respondSwapEntry at h
    rw [if_pos hs] at h
    cases acc <;> simp at h
  · have hs2 : (s.id == rid) = false := by simpa using hs
    exact ⟨by simp [respondSwapEntry, hs2], hs2⟩

/-- A successful `respond_to_swap` preserves the invariant: the responded
request leaves the PENDING set, and by `PendingUnique` no other pending
request touches its two slots, so re-statusing them is harmless. -/
theorem inv_respondSwap {db : DB} {u : UserId} {rid : SwapId} {acc : Bool} {now : Int}
    (hok : exOk (respond_to_swap db u rid acc now).1 = true) (hinv : Inv db) :
    Inv (respond_to_swap db u rid acc now).2 := by
  obtain ⟨R, O, Q, hR, hO, hQ, hQo, hRs, hres, hdb⟩ := respond_to_swap_ok hok
  rw [hdb]
  obtain ⟨hc, hm⟩ := hinv
  have hRmem : R ∈ db.swaps := List.mem_of_find?_eq_some hR
  have hRid : R.id = rid := by simpa using List.find?_some hR
  have hOid : O.id = R.offered_event_id := by simpa using List.find?_some hO
  have hQid : Q.id = R.requested_event_id := by simpa using List.find?_some hQ
  constructor
  · intro i
    have h2 := hc i
    simp only [countPending] at h2 ⊢
    refine le_trans (length_filter_map_le _ _ ?_ db.swaps) h2
    intro s hps
    have hstat : (respondSwapEntry rid acc now s).status = .PENDING := by
      have h3 := (Bool.and_eq_true _ _).mp hps
      simpa using h3.1
    obtain ⟨heq, -⟩ := respondSwapEntry_pending hstat
    rwa [heq] at hps
  · intro s2 hs2 hp2 x hx ht
    simp only at hs2 hx
    rcases List.mem_map.mp hs2 with ⟨s, hsmem, rfl⟩
    obtain ⟨heq, hsid⟩ := respondSwapEntry_pending hp2
    rw [heq] at hp2 ht
    rcases List.mem_map.mp hx with ⟨e, hemem, rfl⟩
    rw [respondSlot_id] at ht
    have hsne : s ≠ R := by
      intro hsr
      rw [hsr, hRid] at hsid
      simp at hsid
    by_cases h1 : (e.id == O.id) = true
    · exfalso
      have hei : e.id = O.id := beq_iff_eq.mp h1
      have hside : (s.offered_event_id == R.offered_event_id ||
          s.requested_event_id == R.offered_event_id) = true := by
        rcases ht with ht | ht
        · simp [← ht, hei, hOid]
        · simp [← ht, hei, hOid]
      have hmemS : s ∈ db.swaps.filter (fun s =>
          s.status == SwapRequestStatusEnum.PENDING &&
            (s.offered_event_id == R.offered_event_id ||
             s.requested_event_id == R.offered_event_id)) := by
        refine List.mem_filter.mpr ⟨hsmem, ?_⟩
        rw [Bool.and_eq_true]
        exact ⟨by simp [hp2], hside⟩
      have hmemR : R ∈ db.swaps.filter (fun s =>
          s.status == SwapRequestStatusEnum.PENDING &&
            (s.offered_event_id == R.offered_event_id ||
             s.requested_event_id == R.offered_event_id)) := by
        refine List.mem_filter.mpr ⟨hRmem, ?_⟩
        simp [hRs]
      have h3 := two_le_length_of_mem hmemS hmemR hsne
      have h2 := hc R.offered_event_id
      simp only [countPending] at h2
      omega
    · by_cases h2 : (e.id == Q.id) = true
      · exfalso
        have hei : e.id = Q.id := beq_iff_eq.mp h2
        have hside : (s.offered_event_id == R.requested_event_id ||
            s.requested_event_id == R.requested_event_id) = true := by
          rcases ht with ht | ht
          · simp [← ht, hei, hQid]
          · simp [← ht, hei, hQid]
        have hmemS : s ∈ db.swaps.filter (fun s =>
            s.status == SwapRequestStatusEnum.PENDING &&
              (s.offered_event_id == R.requested_event_id ||
               s.requested_event_id == R.requested_event_id)) := by
          refine List.mem_filter.mpr ⟨hsmem, ?_⟩
          rw [Bool.and_eq_true]
          exact ⟨by simp [hp2], hside⟩
        have hmemR : R ∈ db.swaps.filter (fun s =>
            s.status == SwapRequestStatusEnum.PENDING &&
              (s.offered_event_id == R.requested_event_id ||
               s.requested_event_id == R.requested_event_id)) := by
          refine List.mem_filter.mpr ⟨hRmem, ?_⟩
          simp [hRs]
        have h3 := two_le_length_of_mem hmemS hmemR hsne
        have h4 := hc R.requested_event_id
        simp only [countPending] at h4
        omega
      · have hne1 : (e.id == O.id) = false := by simpa using h1
        have hne2 : (e.id == Q.id) = false := by simpa using h2
        rw [respondSlot_other hne1 hne2]
        exact hm s hsmem hp2 e hemem ht

/-- The invariant holds in a fresh store. -/
theorem inv_init (us : List User) : Inv (DB.init us) := by
  constructor
  · intro i
    simp [countPending, DB.init]
  · intro s hs
    simp [DB.init] at hs

/-- Every status-safe step preserves the invariant. -/
theorem inv_step {db db2 : DB} (h : Step true db db2) (hinv : Inv db) : Inv db2 := by
  cases h with
  | createEvent u t st en nid hfresh => exact inv_createEvent hfresh hinv
  | updateEvent u eid p hsafe hok => exact inv_updateEvent (hsafe rfl) hok hinv
  | deleteEvent u eid hok => exact inv_deleteEvent hok hinv
  | requestSwap u a b nid now hfresh hok => exact inv_requestSwap hok hinv
  | respondSwap u rid acc now hok => exact inv_respondSwap hok hinv

/-- The invariant holds in every state safely reachable from a fresh store. -/
theorem inv_reachable {us : List User} {db : DB} (h : Reachable true (DB.init us) db) :
    Inv db := by
  induction h with
  | refl => exact inv_init us
  | tail hpre hstep ih => exact inv_step hstep ih

/-- Trace refuting the unrestricted invariant: three users each create an
event and promote it to SWAPPABLE; user 1 opens a swap for events 10/11,
then resets event 10 (currently SWAP_PENDING) back to SWAPPABLE through
`update_event`, and opens a second swap for events 10/12. -/
def xdb0 : DB := DB.init [{ id := 1, name := "X" }, { id := 2, name := "Y" }, { id := 3, name := "Z" }]

def xdb1 : DB := (create_event xdb0 1 "a" 0 1 10).2

def xdb2 : DB := (create_event xdb1 2 "b" 2 3 11).2

def xdb3 : DB := (create_event xdb2 3 "c" 4 5 12).2

def xdb4 : DB := (update_event xdb3 1 10 { status := some .SWAPPABLE }).2

def xdb5 : DB := (update_event xdb4 2 11 { status := some .SWAPPABLE }).2

def xdb6 : DB := (update_event xdb5 3 12 { status := some .SWAPPABLE }).2

def xdb7 : DB := (request_swap xdb6 1 10 11 100 5).2

def xdb8 : DB := (update_event xdb7 1 10 { status := some .SWAPPABLE }).2

def xdb9 : DB := (request_swap xdb8 1 10 12 101 6).2

/-- The state `xdb9` is reachable through the unrestricted public
operations. -/
theorem xdb9_reachable : Reachable false xdb0 xdb9 := by
  have hno : ∀ q : Prop, false = true → q := fun q h => absurd h (by decide)
  have s1 : Step false xdb0 xdb1 := Step.createEvent xdb0 1 "a" 0 1 10 (by decide)
  have s2 : Step false xdb1 xdb2 := Step.createEvent xdb1 2 "b" 2 3 11 (by decide)
  have s3 : Step false xdb2 xdb3 := Step.createEvent xdb2 3 "c" 4 5 12 (by decide)
  have s4 : Step false xdb3 xdb4 :=
    Step.updateEvent xdb3 1 10 { status := some .SWAPPABLE } (hno _) (by decide)
  have s5 : Step false xdb4 xdb5 :=
    Step.updateEvent xdb4 2 11 { status := some .SWAPPABLE } (hno _) (by decide)
  have s6 : Step false xdb5 xdb6 :=
    Step.updateEvent xdb5 3 12 { status := some .SWAPPABLE } (hno _) (by decide)
  have s7 : Step false xdb6 xdb7 := Step.requestSwap xdb6 1 10 11 100 5 (by decide) (by decide)
  have s8 : Step false xdb7 xdb8 :=
    Step.updateEvent xdb7 1 10 { status := some .SWAPPABLE } (hno _) (by decide)
  have s9 : Step false xdb8 xdb9 := Step.requestSwap xdb8 1 10 12 101 6 (by decide) (by decide)
  exact Relation.ReflTransGen.tail (Relation.ReflTransGen.tail (Relation.ReflTransGen.tail
    (Relation.ReflTransGen.tail (Relation.ReflTransGen.tail (Relation.ReflTransGen.tail
      (Relation.ReflTransGen.tail (Relation.ReflTransGen.tail (Relation.ReflTransGen.tail
        Relation.ReflTransGen.refl s1) s2) s3) s4) s5) s6) s7) s8) s9

/-- Safe trace for the witness: two users, two events promoted to
SWAPPABLE, one swap request opened. -/
def wdb0 : DB := DB.init [{ id := 1, name := "X" }, { id := 2, name := "Y" }]

def wdb1 : DB := (create_event wdb0 1 "a" 0 1 10).2

def wdb2 : DB := (create_event wdb1 2 "b" 2 3 11).2

def wdb3 : DB := (update_event wdb2 1 10 { status := some .SWAPPABLE }).2

def wdb4 : DB := (update_event wdb3 2 11 { status := some .SWAPPABLE }).2

def wdb5 : DB := (request_swap wdb4 1 10 11 100 5).2

/-- The state `wdb5` is reachable through status-safe public operations. -/
theorem wdb5_reachable : Reachable true wdb0 wdb5 := by
  have s1 : Step true wdb0 wdb1 := Step.createEvent wdb0 1 "a" 0 1 10 (by decide)
  have s2 : Step true wdb1 wdb2 := Step.createEvent wdb1 2 "b" 2 3 11 (by decide)
  have s3 : Step true wdb2 wdb3 :=
    Step.updateEvent wdb2 1 10 { status := some .SWAPPABLE } (fun _ => by decide) (by decide)
  have s4 : Step true wdb3 wdb4 :=
    Step.updateEvent wdb3 2 11 { status := some .SWAPPABLE } (fun _ => by decide) (by decide)
  have s5 : Step true wdb4 wdb5 := Step.requestSwap wdb4 1 10 11 100 5 (by decide) (by decide)
  exact Relation.ReflTransGen.tail (Relation.ReflTransGen.tail (Relation.ReflTransGen.tail
    (Relation.ReflTransGen.tail (Relation.ReflTransGen.tail
      Relation.ReflTransGen.refl s1) s2) s3) s4) s5

/-- C2 (counterexample): as literally stated over all public operations the
one-pending-request-per-slot invariant is false — `update_event` may reset a
SWAP_PENDING slot to SWAPPABLE, after which a second PENDING request can
reference it.  `xdb9` is reachable and its event 10 sits on two PENDING
requests. -/
theorem C2_counterexample :
    Reachable false xdb0 xdb9 ∧
    ({ id := 10, title := "a", start_time := 0, end_time := 1,
       status := EventStatusEnum.SWAP_PENDING, owner_id := 1 } : Event) ∈ xdb9.events ∧
    countPending xdb9 10 = 2 :=
  ⟨xdb9_reachable, by decide, by decide⟩

/-- C2 (amended): in every state reachable from a fresh store through
create/update/delete event, requestSwap and respondToSwap, where direct
event updates never rewrite the status of a slot currently in SWAP_PENDING,
each slot is the offered or requested side of at most one PENDING swap
request. -/
theorem C2_pending_unique_reachable {us : List User} {db : DB}
    (h : Reachable true (DB.init us) db) :
    ∀ e ∈ db.events, countPending db e.id ≤ 1 :=
  fun e _ => (inv_reachable h).1 e.id

/-- Witness instantiating C2 on the concrete safe trace `wdb5`. -/
theorem C2_pending_unique_reachable_witness : countPending wdb5 10 ≤ 1 :=
  C2_pending_unique_reachable wdb5_reachable
    { id := 10, title := "a", start_time := 0, end_time := 1,
      status := EventStatusEnum.SWAP_PENDING, owner_id := 1 } (by decide)

/-- Event lookup in a store whose events were mapped through an
id-preserving function. -/
theorem findEvent_map (db : DB) (g : Event → Event) (hg : ∀ e, (g e).id = e.id)
    (us : List User) (sw : List SwapRequest) (i : EventId) :
    findEvent { users := us, events := db.events.map g, swaps := sw } i =
      (findEvent db i).map g := by
  simp only [findEvent]
  exact find?_map_key (fun e => e.id) g hg db.events i

/-- Swap lookup in a store whose swaps were mapped through an id-preserving
function. -/
theorem findSwap_map (db : DB) (g : SwapRequest → SwapRequest)
    (hg : ∀ s, (g s).id = s.id) (us : List User) (ev : List Event) (i : SwapId) :
    findSwap { users := us, events := ev, swaps := db.swaps.map g } i =
      (findSwap db i).map g := by
  simp only [findSwap]
  exact find?_map_key (fun s => s.id) g hg db.swaps i

/-- `respondSwapEntry` never changes the swap id. -/
theorem respondSwapEntry_id (rid : SwapId) (acc : Bool) (now : Int) (s : SwapRequest) :
    (respondSwapEntry rid acc now s).id = s.id := by
  unfold respondSwapEntry
  split_ifs <;> rfl

/-- C1: given a PENDING request R tying offered slot A (owner X, status
SWAP_PENDING) and requested slot B (owner Y, status SWAP_PENDING) with
requester X, a respondToSwap by Y succeeds for both actions; accepting
leaves A.owner = Y, B.owner = X, both slots BUSY and R ACCEPTED, while
rejecting leaves the owners unchanged, both slots SWAPPABLE and R
REJECTED. -/
theorem C1_accept_reject {db : DB} {rid : SwapId} {X Y : UserId} {R : SwapRequest}
    {A B : Event} {now : Int}
    (hXY : X ≠ Y)
    (hR : findSwap db rid = some R) (hRs : R.status = .PENDING) (hRq : R.requester_id = X)
    (hA : findEvent db R.offered_event_id = some A) (hAo : A.owner_id = X)
    (hAs : A.status = .SWAP_PENDING)
    (hB : findEvent db R.requested_event_id = some B) (hBo : B.owner_id = Y)
    (hBs : B.status = .SWAP_PENDING) :
    (exOk (respond_to_swap db Y rid true now).1 = true ∧
     findEvent (respond_to_swap db Y rid true now).2 R.offered_event_id =
       some { A with owner_id := Y, status := EventStatusEnum.BUSY } ∧
     findEvent (respond_to_swap db Y rid true now).2 R.requested_event_id =
       some { B with owner_id := X, status := EventStatusEnum.BUSY } ∧
     findSwap (respond_to_swap db Y rid true now).2 rid =
       some { R with status := SwapRequestStatusEnum.ACCEPTED, updated_at := now }) ∧
    (exOk (respond_to_swap db Y rid false now).1 = true ∧
     findEvent (respond_to_swap db Y rid false now).2 R.offered_event_id =
       some { A with status := EventStatusEnum.SWAPPABLE } ∧
     findEvent (respond_to_swap db Y rid false now).2 R.requested_event_id =
       some { B with status := EventStatusEnum.SWAPPABLE } ∧
     findSwap (respond_to_swap db Y rid false now).2 rid =
       some { R with status := SwapRequestStatusEnum.REJECTED, updated_at := now }) := by
  have hAid : A.id = R.offered_event_id := by simpa using List.find?_some hA
  have hBid : B.id = R.requested_event_id := by simpa using List.find?_some hB
  have hRid : R.id = rid := by simpa using List.find?_some hR
  have hone : R.offered_event_id ≠ R.requested_event_id := by
    intro heq
    rw [heq, hB] at hA
    have hab : B = A := by injection hA
    rw [← hab, hBo] at hAo
    exact hXY hAo.symm
  have hBA : (B.id == A.id) = false := by
    refine beq_eq_false_iff_ne.mpr ?_
    rw [hAid, hBid]
    exact fun heq2 => hone heq2.symm
  have hAA : (A.id == A.id) = true := by simp
  have hBB : (B.id == B.id) = true := by simp
  have hgo : ∀ acc2 : Bool, (respond_to_swap db Y rid acc2 now).1 =
        .ok { R with status := if acc2 then .ACCEPTED else .REJECTED, updated_at := now } ∧
      (respond_to_swap db Y rid acc2 now).2 =
        { db with events := db.events.map (respondSlot acc2 A B),
                  swaps := db.swaps.map (respondSwapEntry rid acc2 now) } := by
    intro acc2
    constructor
    · simp only [respond_to_swap, hR, hA, hB]
      simp [hBo, hRs]
    · simp only [respond_to_swap, hR, hA, hB]
      simp [hBo, hRs]
  constructor
  · obtain ⟨hres, hdb⟩ := hgo true
    refine ⟨by rw [hres]; rfl, ?_, ?_, ?_⟩
    · rw [hdb, findEvent_map db _ (respondSlot_id true A B), hA]
      simp only [Option.map_some']
      rw [show respondSlot true A B A =
            { A with owner_id := B.owner_id, status := EventStatusEnum.BUSY } by
          simp [respondSlot, hAA], hBo]
    · rw [hdb, findEvent_map db _ (respondSlot_id true A B), hB]
      simp only [Option.map_some']
      rw [show respondSlot true A B B =
            { B with owner_id := A.owner_id, status := EventStatusEnum.BUSY } by
          simp [respondSlot, hBA, hBB], hAo]
    · rw [hdb, findSwap_map db _ (respondSwapEntry_id rid true now), hR]
      simp only [Option.map_some']
      rw [show respondSwapEntry rid true now R =
            { R with status := SwapRequestStatusEnum.ACCEPTED, updated_at := now } by
          simp [respondSwapEntry, hRid]]
  · obtain ⟨hres, hdb⟩ := hgo false
    refine ⟨by rw [hres]; rfl, ?_, ?_, ?_⟩
    · rw [hdb, findEvent_map db _ (respondSlot_id false A B), hA]
      simp only [Option.map_some']
      rw [show respondSlot false A B A =
            { A with status := EventStatusEnum.SWAPPABLE } by
          simp [respondSlot, hAA, hAs]]
    · rw [hdb, findEvent_map db _ (respondSlot_id false A B), hB]
      simp only [Option.map_some']
      rw [show respondSlot false A B B =
            { B with status := EventStatusEnum.SWAPPABLE } by
          simp [respondSlot, hBA, hBB, hBs]]
    · rw [hdb, findSwap_map db _ (respondSwapEntry_id rid false now), hR]
      simp only [Option.map_some']
      rw [show respondSwapEntry rid false now R =
            { R with status := SwapRequestStatusEnum.REJECTED, updated_at := now } by
          simp [respondSwapEntry, hRid]]

/-- Witness instantiating C1 on the concrete trace `wdb5` (request 100 ties
events 10 and 11; user 2 responds at time 7). -/
theorem C1_accept_reject_witness :
    (exOk (respond_to_swap wdb5 2 100 true 7).1 = true ∧
     findEvent (respond_to_swap wdb5 2 100 true 7).2 10 =
       some { id := 10, title := "a", start_time := 0, end_time := 1,
              status := EventStatusEnum.BUSY, owner_id := 2 } ∧
     findEvent (respond_to_swap wdb5 2 100 true 7).2 11 =
       some { id := 11, title := "b", start_time := 2, end_time := 3,
              status := EventStatusEnum.BUSY, owner_id := 1 } ∧
     findSwap (respond_to_swap wdb5 2 100 true 7).2 100 =
       some { id := 100, requester_id := 1, offered_event_id := 10,
              requested_event_id := 11, status := SwapRequestStatusEnum.ACCEPTED,
              created_at := 5, updated_at := 7 }) ∧
    (exOk (respond_to_swap wdb5 2 100 false 7).1 = true ∧
     findEvent (respond_to_swap wdb5 2 100 false 7).2 10 =
       some { id := 10, title := "a", start_time := 0, end_time := 1,
              status := EventStatusEnum.SWAPPABLE, owner_id := 1 } ∧
     findEvent (respond_to_swap wdb5 2 100 false 7).2 11 =
       some { id := 11, title := "b", start_time := 2, end_time := 3,
              status := EventStatusEnum.SWAPPABLE, owner_id := 2 } ∧
     findSwap (respond_to_swap wdb5 2 100 false 7).2 100 =
       some { id := 100, requester_id := 1, offered_event_id := 10,
              requested_event_id := 11, status := SwapRequestStatusEnum.REJECTED,
              created_at := 5, updated_at := 7 }) :=
  @C1_accept_reject wdb5 100 1 2
    { id := 100, requester_id := 1, offered_event_id := 10, requested_event_id := 11,
      status := SwapRequestStatusEnum.PENDING, created_at := 5, updated_at := 5 }
    { id := 10, title := "a", start_time := 0, end_time := 1,
      status := EventStatusEnum.SWAP_PENDING, owner_id := 1 }
    { id := 11, title := "b", start_time := 2, end_time := 3,
      status := EventStatusEnum.SWAP_PENDING, owner_id := 2 }
    7 (by decide) (by decide) (by decide) (by decide) (by decide) (by decide)
    (by decide) (by decide) (by decide) (by decide)

/-- C3: when both slots exist, the caller owns the offered slot and does not
own the requested one, `request_swap` fails with InvalidOperation "Your slot
is not swappable" when the offered slot is not SWAPPABLE, fails with
InvalidOperation "Requested slot is not swappable" when the offered slot is
SWAPPABLE but the requested one is not, and otherwise succeeds, appends a
PENDING SwapRequest and sets both slots to SWAP_PENDING. -/
theorem C3_request_swap_status_gate {db : DB} {u : UserId} {a b : EventId}
    {A B : Event} {nid : SwapId} {now : Int}
    (hA : findEvent db a = some A) (hB : findEvent db b = some B)
    (hAo : A.owner_id = u) (hBo : B.owner_id ≠ u) :
    (A.status ≠ .SWAPPABLE →
      (request_swap db u a b nid now).1 =
        .error (.InvalidOperation "Your slot is not swappable")) ∧
    (A.status = .SWAPPABLE → B.status ≠ .SWAPPABLE →
      (request_swap db u a b nid now).1 =
        .error (.InvalidOperation "Requested slot is not swappable")) ∧
    (A.status = .SWAPPABLE → B.status = .SWAPPABLE →
      (request_swap db u a b nid now).1 =
        .ok { id := nid, requester_id := u, offered_event_id := A.id,
              requested_event_id := B.id, status := SwapRequestStatusEnum.PENDING,
              created_at := now, updated_at := now } ∧
      (request_swap db u a b nid now).2.swaps =
        db.swaps ++ [{ id := nid, requester_id := u, offered_event_id := A.id,
                       requested_event_id := B.id, status := SwapRequestStatusEnum.PENDING,
                       created_at := now, updated_at := now }] ∧
      findEvent (request_swap db u a b nid now).2 a =
        some { A with status := EventStatusEnum.SWAP_PENDING } ∧
      findEvent (request_swap db u a b nid now).2 b =
        some { B with status := EventStatusEnum.SWAP_PENDING }) := by
  have hAid : A.id = a := by simpa using List.find?_some hA
  have hBid : B.id = b := by simpa using List.find?_some hB
  refine ⟨?_, ?_, ?_⟩
  · intro hst
    simp only [request_swap, hA, hB]
    simp [hAo, hBo, hst]
  · intro h3 h4
    simp only [request_swap, hA, hB]
    simp [hAo, hBo, h3, h4]
  · intro h3 h4
    have hdb : (request_swap db u a b nid now).2 =
        { db with
          events := db.events.map (fun e =>
            if e.id == A.id || e.id == B.id then
              { e with status := EventStatusEnum.SWAP_PENDING }
            else e),
          swaps := db.swaps ++
            [{ id := nid, requester_id := u, offered_event_id := A.id,
               requested_event_id := B.id, status := SwapRequestStatusEnum.PENDING,
               created_at := now, updated_at := now }] } := by
      simp only [request_swap, hA, hB]
      simp [hAo, hBo, h3, h4]
    have hg : ∀ e : Event, ((if e.id == A.id || e.id == B.id then
        { e with status := EventStatusEnum.SWAP_PENDING } else e) : Event).id = e.id := by
      intro e
      split_ifs <;> rfl
    refine ⟨?_, ?_, ?_, ?_⟩
    · simp only [request_swap, hA, hB]
      simp [hAo, hBo, h3, h4]
    · rw [hdb]
    · rw [hdb, findEvent_map db _ hg, hA]
      simp only [Option.map_some']
      simp [hAid]
    · rw [hdb, findEvent_map db _ hg, hB]
      simp only [Option.map_some']
      simp [hBid]

/-- Witness instantiating C3 on the concrete trace `wdb4` (events 10 and
11 both SWAPPABLE, owners 1 and 2). -/
theorem C3_request_swap_status_gate_witness :
    (EventStatusEnum.SWAPPABLE ≠ .SWAPPABLE →
      (request_swap wdb4 1 10 11 100 5).1 =
        .error (.InvalidOperation "Your slot is not swappable")) ∧
    (EventStatusEnum.SWAPPABLE = .SWAPPABLE → EventStatusEnum.SWAPPABLE ≠ .SWAPPABLE →
      (request_swap wdb4 1 10 11 100 5).1 =
        .error (.InvalidOperation "Requested slot is not swappable")) ∧
    (EventStatusEnum.SWAPPABLE = .SWAPPABLE → EventStatusEnum.SWAPPABLE = .SWAPPABLE →
      (request_swap wdb4 1 10 11 100 5).1 =
        .ok { id := 100, requester_id := 1, offered_event_id := 10,
              requested_event_id := 11, status := SwapRequestStatusEnum.PENDING,
              created_at := 5, updated_at := 5 } ∧
      (request_swap wdb4 1 10 11 100 5).2.swaps =
        wdb4.swaps ++ [{ id := 100, requester_id := 1, offered_event_id := 10,
                         requested_event_id := 11, status := SwapRequestStatusEnum.PENDING,
                         created_at := 5, updated_at := 5 }] ∧
      findEvent (request_swap wdb4 1 10 11 100 5).2 10 =
        some { id := 10, title := "a", start_time := 0, end_time := 1,
               status := EventStatusEnum.SWAP_PENDING, owner_id := 1 } ∧
      findEvent (request_swap wdb4 1 10 11 100 5).2 11 =
        some { id := 11, title := "b", start_time := 2, end_time := 3,
               status := EventStatusEnum.SWAP_PENDING, owner_id := 2 }) :=
  @C3_request_swap_status_gate wdb4 1 10 11
    { id := 10, title := "a", start_time := 0, end_time := 1,
      status := EventStatusEnum.SWAPPABLE, owner_id := 1 }
    { id := 11, title := "b", start_time := 2, end_time := 3,
      status := EventStatusEnum.SWAPPABLE, owner_id := 2 }
    100 5 (by decide) (by decide) (by decide) (by decide)

/-- C4 (counterexample): in `wdb4` user 2 owns the requested slot 11 but
not the offered slot 10; the call fails with PermissionDenied (the
ownership check runs before the self-swap check), not InvalidOperation as
the claim states. -/
theorem C4_counterexample :
    findEvent wdb4 10 = some { id := 10, title := "a", start_time := 0, end_time := 1,
                               status := EventStatusEnum.SWAPPABLE, owner_id := 1 } ∧
    findEvent wdb4 11 = some { id := 11, title := "b", start_time := 2, end_time := 3,
                               status := EventStatusEnum.SWAPPABLE, owner_id := 2 } ∧
    (request_swap wdb4 2 10 11 100 5).1 =
      .error (.PermissionDenied "You do not own the offered slot") ∧
    ∀ d, (request_swap wdb4 2 10 11 100 5).1 ≠ .error (.InvalidOperation d) := by
  refine ⟨by decide, by decide, rfl, ?_⟩
  intro d h
  have hres : (request_swap wdb4 2 10 11 100 5).1 =
      .error (.PermissionDenied "You do not own the offered slot") := rfl
  rw [hres] at h
  simp at h

/-- C4 (amended): when both slots exist and the caller owns BOTH the
offered and the requested slot, `request_swap` always fails with
InvalidOperation "Cannot request swap with your own slot", regardless of
slot statuses; when the caller does not own the offered slot the call
fails with PermissionDenied instead. -/
theorem C4_no_self_swap {db : DB} {u : UserId} {a b : EventId} {A B : Event}
    {nid : SwapId} {now : Int}
    (hA : findEvent db a = some A) (hB : findEvent db b = some B)
    (hBo : B.owner_id = u) :
    (A.owner_id = u →
      (request_swap db u a b nid now).1 =
        .error (.InvalidOperation "Cannot request swap with your own slot")) ∧
    (A.owner_id ≠ u →
      (request_swap db u a b nid now).1 =
        .error (.PermissionDenied "You do not own the offered slot")) := by
  constructor
  · intro h1
    simp only [request_swap, hA, hB]
    simp [h1, hBo]
  · intro h1
    simp only [request_swap, hA, hB]
    simp [h1]

/-- Witness instantiating C4 (amended) on `wdb4` with user 2 offering and
requesting their own slot 11. -/
theorem C4_no_self_swap_witness :
    ((2 : UserId) = 2 →
      (request_swap wdb4 2 11 11 100 5).1 =
        .error (.InvalidOperation "Cannot request swap with your own slot")) ∧
    ((2 : UserId) ≠ 2 →
      (request_swap wdb4 2 11 11 100 5).1 =
        .error (.PermissionDenied "You do not own the offered slot")) :=
  @C4_no_self_swap wdb4 2 11 11
    { id := 11, title := "b", start_time := 2, end_time := 3,
      status := EventStatusEnum.SWAPPABLE, owner_id := 2 }
    { id := 11, title := "b", start_time := 2, end_time := 3,
      status := EventStatusEnum.SWAPPABLE, owner_id := 2 }
    100 5 (by decide) (by decide) (by decide)

/-- Post-accept state used against C5: request 100 is ACCEPTED, event 10
is now owned by user 2 and event 11 by user 1. -/
def cdb5 : DB := (respond_to_swap wdb5 2 100 true 7).2

/-- C5 (counterexample): request 100 in `cdb5` is terminal (ACCEPTED), yet
a further respondToSwap by user 2 — the very user who accepted it — fails
with PermissionDenied, not InvalidOperation: after the ownership exchange
user 2 no longer owns the requested slot, and the authorization check runs
before the terminal-status check. -/
theorem C5_counterexample :
    findSwap cdb5 100 =
      some { id := 100, requester_id := 1, offered_event_id := 10,
             requested_event_id := 11, status := SwapRequestStatusEnum.ACCEPTED,
             created_at := 5, updated_at := 7 } ∧
    (respond_to_swap cdb5 2 100 true 8).1 =
      .error (.PermissionDenied "Not authorized to respond to this request") ∧
    ∀ d, (respond_to_swap cdb5 2 100 true 8).1 ≠ .error (.InvalidOperation d) := by
  refine ⟨by decide, rfl, ?_⟩
  intro d h
  have hres : (respond_to_swap cdb5 2 100 true 8).1 =
      .error (.PermissionDenied "Not authorized to respond to this request") := rfl
  rw [hres] at h
  simp at h

/-- C5 (amended): once a SwapRequest is terminal (not PENDING), every
further `respond_to_swap` on it, by any user, fails and mutates nothing;
the error is InvalidOperation "Swap request already processed" exactly when
both referenced events exist and the caller owns the requested slot; it is
NotFound "Related events not found" when either referenced event is
missing, and PermissionDenied "Not authorized to respond to this request"
when both exist but the caller does not own the requested slot. -/
theorem C5_terminal_no_mutation {db : DB} {u : UserId} {rid : SwapId} {acc : Bool}
    {now : Int} {R : SwapRequest}
    (hR : findSwap db rid = some R) (hterm : R.status ≠ .PENDING) :
    (∃ err, (respond_to_swap db u rid acc now).1 = .error err) ∧
    (respond_to_swap db u rid acc now).2 = db ∧
    ((respond_to_swap db u rid acc now).1 =
        .error (.InvalidOperation "Swap request already processed") ↔
      ∃ O Q : Event, findEvent db R.offered_event_id = some O ∧
        findEvent db R.requested_event_id = some Q ∧ Q.owner_id = u) ∧
    ((findEvent db R.offered_event_id = none ∨
        findEvent db R.requested_event_id = none) →
      (respond_to_swap db u rid acc now).1 =
        .error (.NotFound "Related events not found")) ∧
    (∀ O Q : Event, findEvent db R.offered_event_id = some O →
      findEvent db R.requested_event_id = some Q → Q.owner_id ≠ u →
      (respond_to_swap db u rid acc now).1 =
        .error (.PermissionDenied "Not authorized to respond to this request")) := by
  rcases hO : findEvent db R.offered_event_id with _ | O
  · have hres : (respond_to_swap db u rid acc now).1 =
        .error (.NotFound "Related events not found") := by
      simp only [respond_to_swap, hR, hO]
    refine ⟨⟨.NotFound "Related events not found", hres⟩, ?_, ?_, fun _ => hres, ?_⟩
    · simp only [respond_to_swap, hR, hO]
    · constructor
      · intro h
        rw [hres] at h
        simp at h
      · rintro ⟨O2, Q2, hO2, hQ2, hQo⟩
        simp at hO2
    · intro O2 Q2 hO2 hQ2 hQo2
      simp at hO2
  · rcases hQ : findEvent db R.requested_event_id with _ | Q
    · have hres : (respond_to_swap db u rid acc now).1 =
          .error (.NotFound "Related events not found") := by
        simp only [respond_to_swap, hR, hO, hQ]
      refine ⟨⟨.NotFound "Related events not found", hres⟩, ?_, ?_, fun _ => hres, ?_⟩
      · simp only [respond_to_swap, hR, hO, hQ]
      · constructor
        · intro h
          rw [hres] at h
          simp at h
        · rintro ⟨O2, Q2, hO2, hQ2, hQo⟩
          simp at hQ2
      · intro O2 Q2 hO2 hQ2 hQo2
        simp at hQ2
    · by_cases hown : Q.owner_id = u
      · have hres : (respond_to_swap db u rid acc now).1 =
            .error (.InvalidOperation "Swap request already processed") := by
          simp only [respond_to_swap, hR, hO, hQ]
          simp [hown, hterm]
        refine ⟨⟨.InvalidOperation "Swap request already processed", hres⟩, ?_, ?_, ?_, ?_⟩
        · simp only [respond_to_swap, hR, hO, hQ]
          simp [hown, hterm]
        · exact ⟨fun _ => ⟨O, Q, rfl, rfl, hown⟩, fun _ => hres⟩
        · intro h
          rcases h with h | h <;> simp at h
        · intro O2 Q2 hO2 hQ2 hne
          have hq : Q = Q2 := by injection hQ2
          rw [← hq] at hne
          exact absurd hown hne
      · have hres : (respond_to_swap db u rid acc now).1 =
            .error (.PermissionDenied "Not authorized to respond to this request") := by
          simp only [respond_to_swap, hR, hO, hQ]
          simp [hown]
        refine ⟨⟨.PermissionDenied "Not authorized to respond to this request", hres⟩,
          ?_, ?_, ?_, fun _ _ _ _ _ => hres⟩
        · simp only [respond_to_swap, hR, hO, hQ]
          simp [hown]
        · constructor
          · intro h
            rw [hres] at h
            simp at h
          · rintro ⟨O2, Q2, hO2, hQ2, hQo⟩
            have hq : Q = Q2 := by injection hQ2
            rw [← hq] at hQo
            exact absurd hQo hown
        · intro h
          rcases h with h | h <;> simp at h

/-- Witness instantiating C5 (amended) on `cdb5` with caller 1, who now
owns the requested slot 11 after the accepted exchange of request 100. -/
theorem C5_terminal_no_mutation_witness :
    (∃ err, (respond_to_swap cdb5 1 100 false 9).1 = .error err) ∧
    (respond_to_swap cdb5 1 100 false 9).2 = cdb5 ∧
    ((respond_to_swap cdb5 1 100 false 9).1 =
        .error (.InvalidOperation "Swap request already processed") ↔
      ∃ O Q : Event, findEvent cdb5 10 = some O ∧
        findEvent cdb5 11 = some Q ∧ Q.owner_id = 1) ∧
    ((findEvent cdb5 10 = none ∨ findEvent cdb5 11 = none) →
      (respond_to_swap cdb5 1 100 false 9).1 =
        .error (.NotFound "Related events not found")) ∧
    (∀ O Q : Event, findEvent cdb5 10 = some O →
      findEvent cdb5 11 = some Q → Q.owner_id ≠ 1 →
      (respond_to_swap cdb5 1 100 false 9).1 =
        .error (.PermissionDenied "Not authorized to respond to this request")) :=
  @C5_terminal_no_mutation cdb5 1 100 false 9
    { id := 100, requester_id := 1, offered_event_id := 10, requested_event_id := 11,
      status := SwapRequestStatusEnum.ACCEPTED, created_at := 5, updated_at := 7 }
    (by decide) (by decide)

/-- C6: whenever `request_swap` or `respond_to_swap` returns any failure,
the store is exactly its pre-call state — no partial multi-entity update is
observable. -/
theorem C6_failure_no_mutation (db : DB) (u : UserId) (a b : EventId) (nid : SwapId)
    (rid : SwapId) (acc : Bool) (now : Int) :
    (∀ err, (request_swap db u a b nid now).1 = .error err →
      (request_swap db u a b nid now).2 = db) ∧
    (∀ err, (respond_to_swap db u rid acc now).1 = .error err →
      (respond_to_swap db u rid acc now).2 = db) := by
  constructor
  · intro err herr
    rcases hA : findEvent db a with _ | A
    · simp [request_swap, hA]
    · rcases hB : findEvent db b with _ | B
      · simp [request_swap, hA, hB]
      · by_cases h1 : A.owner_id ≠ u
        · simp [request_swap, hA, hB, h1]
        · by_cases h2 : B.owner_id = u
          · simp [request_swap, hA, hB, h1, h2]
          · by_cases h3 : A.status ≠ EventStatusEnum.SWAPPABLE
            · simp [request_swap, hA, hB, h1, h2, h3]
            · by_cases h4 : B.status ≠ EventStatusEnum.SWAPPABLE
              · simp [request_swap, hA, hB, h1, h2, h3, h4]
              · exfalso
                simp only [request_swap, hA, hB] at herr
                simp [h1, h2, h3, h4] at herr
  · intro err herr
    rcases hR : findSwap db rid with _ | R
    · simp [respond_to_swap, hR]
    · rcases hO : findEvent db R.offered_event_id with _ | O
      · simp [respond_to_swap, hR, hO]
      · rcases hQ : findEvent db R.requested_event_id with _ | Q
        · simp [respond_to_swap, hR, hO, hQ]
        · by_cases h1 : Q.owner_id ≠ u
          · simp [respond_to_swap, hR, hO, hQ, h1]
          · by_cases h2 : R.status ≠ SwapRequestStatusEnum.PENDING
            · simp [respond_to_swap, hR, hO, hQ, h1, h2]
            · exfalso
              simp only [respond_to_swap, hR, hO, hQ] at herr
              simp [h1, h2] at herr

/-- Witness instantiating C6: the failing request in `wdb4` (caller does not
own the offered slot) and the failing response in `cdb5` (request already
terminal) both leave the store untouched. -/
theorem C6_failure_no_mutation_witness :
    (request_swap wdb4 2 10 11 100 5).2 = wdb4 ∧
    (respond_to_swap cdb5 2 100 true 8).2 = cdb5 :=
  ⟨(C6_failure_no_mutation wdb4 2 10 11 100 100 true 5).1
      (.PermissionDenied "You do not own the offered slot") rfl,
   (C6_failure_no_mutation cdb5 2 10 11 100 100 true 8).2
      (.PermissionDenied "Not authorized to respond to this request") rfl⟩

/-- C9: on a successful rejecting respondToSwap, each of the two slots is
set back to SWAPPABLE exactly when its current status is SWAP_PENDING; a
slot of the pair whose status is not SWAP_PENDING keeps its status and all
its other fields. -/
theorem C9_reject_guarded_revert {db : DB} {u : UserId} {rid : SwapId} {now : Int}
    {R : SwapRequest} {O Q : Event}
    (hR : findSwap db rid = some R) (hRs : R.status = .PENDING)
    (hO : findEvent db R.offered_event_id = some O)
    (hQ : findEvent db R.requested_event_id = some Q) (hQo : Q.owner_id = u) :
    exOk (respond_to_swap db u rid false now).1 = true ∧
    findEvent (respond_to_swap db u rid false now).2 R.offered_event_id =
      some { O with status :=
        if O.status = EventStatusEnum.SWAP_PENDING then EventStatusEnum.SWAPPABLE
        else O.status } ∧
    findEvent (respond_to_swap db u rid false now).2 R.requested_event_id =
      some { Q with status :=
        if Q.status = EventStatusEnum.SWAP_PENDING then EventStatusEnum.SWAPPABLE
        else Q.status } := by
  have hOid : O.id = R.offered_event_id := by simpa using List.find?_some hO
  have hQid : Q.id = R.requested_event_id := by simpa using List.find?_some hQ
  have hres : (respond_to_swap db u rid false now).1 =
      .ok { R with status := SwapRequestStatusEnum.REJECTED, updated_at := now } := by
    simp only [respond_to_swap, hR, hO, hQ]
    simp [hQo, hRs]
  have hdb : (respond_to_swap db u rid false now).2 =
      { db with events := db.events.map (respondSlot false O Q),
                swaps := db.swaps.map (respondSwapEntry rid false now) } := by
    simp only [respond_to_swap, hR, hO, hQ]
    simp [hQo, hRs]
  have hrevO : respondSlot false O Q O =
      { O with status := if O.status = EventStatusEnum.SWAP_PENDING then
          EventStatusEnum.SWAPPABLE else O.status } := by
    unfold respondSlot
    rw [if_pos (by simp)]
    by_cases hst : O.status = EventStatusEnum.SWAP_PENDING
    · simp [hst]
    · simp [hst]
  have hrevQ : respondSlot false O Q Q =
      { Q with status := if Q.status = EventStatusEnum.SWAP_PENDING then
          EventStatusEnum.SWAPPABLE else Q.status } := by
    by_cases hqo : (Q.id == O.id) = true
    · have hiq : Q.id = O.id := beq_iff_eq.mp hqo
      have heq : R.requested_event_id = R.offered_event_id := by rw [← hOid, ← hQid, hiq]
      have hOQ : Q = O := by
        rw [heq] at hQ
        rw [hQ] at hO
        injection hO
      unfold respondSlot
      rw [if_pos hqo]
      by_cases hst : O.status = EventStatusEnum.SWAP_PENDING
      · simp [hOQ, hst]
      · simp [hOQ, hst]
    · unfold respondSlot
      rw [if_neg (by simpa using hqo), if_pos (by simp)]
      by_cases hst : Q.status = EventStatusEnum.SWAP_PENDING
      · simp [hst]
      · simp [hst]
  refine ⟨by rw [hres]; rfl, ?_, ?_⟩
  · rw [hdb, findEvent_map db _ (respondSlot_id false O Q), hO]
    simp only [Option.map_some']
    rw [hrevO]
  · rw [hdb, findEvent_map db _ (respondSlot_id false O Q), hQ]
    simp only [Option.map_some']
    rw [hrevQ]

/-- Witness instantiating C9 on `wdb5` (both slots SWAP_PENDING, user 2
rejects request 100 at time 9). -/
theorem C9_reject_guarded_revert_witness :
    exOk (respond_to_swap wdb5 2 100 false 9).1 = true ∧
    findEvent (respond_to_swap wdb5 2 100 false 9).2 10 =
      some { id := 10, title := "a", start_time := 0, end_time := 1,
             status := EventStatusEnum.SWAPPABLE, owner_id := 1 } ∧
    findEvent (respond_to_swap wdb5 2 100 false 9).2 11 =
      some { id := 11, title := "b", start_time := 2, end_time := 3,
             status := EventStatusEnum.SWAPPABLE, owner_id := 2 } :=
  @C9_reject_guarded_revert wdb5 2 100 9
    { id := 100, requester_id := 1, offered_event_id := 10, requested_event_id := 11,
      status := SwapRequestStatusEnum.PENDING, created_at := 5, updated_at := 5 }
    { id := 10, title := "a", start_time := 0, end_time := 1,
      status := EventStatusEnum.SWAP_PENDING, owner_id := 1 }
    { id := 11, title := "b", start_time := 2, end_time := 3,
      status := EventStatusEnum.SWAP_PENDING, owner_id := 2 }
    (by decide) (by decide) (by decide) (by decide) (by decide)

/-- C10: for any event id and acting user such that no stored event with
that id is owned by the user, get/update/delete all fail with NotFound
(never PermissionDenied) and mutate nothing — an event owned by someone
else is indistinguishable from a missing one. -/
theorem C10_owner_scoping_not_found {db : DB} {u : UserId} {eid : EventId}
    (h : ∀ e ∈ db.events, e.id = eid → e.owner_id ≠ u) :
    get_event db u eid = .error (.NotFound "Event not found") ∧
    (∀ p : EventUpdate,
      (update_event db u eid p).1 = .error (.NotFound "Event not found") ∧
      (update_event db u eid p).2 = db) ∧
    (delete_event db u eid).1 = .error (.NotFound "Event not found") ∧
    (delete_event db u eid).2 = db := by
  have hnone : findEventOwned db eid u = none := by
    rw [findEventOwned, List.find?_eq_none]
    intro e he hcond
    rw [Bool.and_eq_true] at hcond
    exact h e he (beq_iff_eq.mp hcond.1) (beq_iff_eq.mp hcond.2)
  refine ⟨?_, fun p => ⟨?_, ?_⟩, ?_, ?_⟩ <;>
    simp [get_event, update_event, delete_event, hnone]

/-- Witness instantiating C10 on `wdb4` with user 2 targeting event 10,
which exists but is owned by user 1. -/
theorem C10_owner_scoping_not_found_witness :
    get_event wdb4 2 10 = .error (.NotFound "Event not found") ∧
    (∀ p : EventUpdate,
      (update_event wdb4 2 10 p).1 = .error (.NotFound "Event not found") ∧
      (update_event wdb4 2 10 p).2 = wdb4) ∧
    (delete_event wdb4 2 10).1 = .error (.NotFound "Event not found") ∧
    (delete_event wdb4 2 10).2 = wdb4 :=
  @C10_owner_scoping_not_found wdb4 2 10 (by decide)

/-- C7: under referential integrity of event owners, `list_swappable_slots`
returns exactly the SWAPPABLE events not owned by the caller, each paired
with its owner row's display name, and the result is sorted by start time
ascending. -/
theorem C7_list_swappable {db : DB} {u : UserId}
    (hint : ∀ e ∈ db.events, (findUser db e.owner_id).isSome = true) :
    (∀ e ∈ db.events, e.status = .SWAPPABLE → e.owner_id ≠ u →
      ∃ w, findUser db e.owner_id = some w ∧ (e, w.name) ∈ list_swappable_slots db u) ∧
    (∀ r ∈ list_swappable_slots db u,
      r.1 ∈ db.events ∧ r.1.status = .SWAPPABLE ∧ r.1.owner_id ≠ u ∧
      ∃ w, findUser db r.1.owner_id = some w ∧ r.2 = w.name) ∧
    (list_swappable_slots db u).Sorted slotOrder := by
  refine ⟨?_, ?_, ?_⟩
  · intro e he hst ho
    obtain ⟨w, hw⟩ := Option.isSome_iff_exists.mp (hint e he)
    refine ⟨w, hw, ?_⟩
    rw [list_swappable_slots, List.mem_insertionSort]
    rw [List.mem_filterMap]
    refine ⟨e, ?_, ?_⟩
    · rw [List.mem_filter]
      refine ⟨he, ?_⟩
      rw [Bool.and_eq_true]
      constructor
      · simp [hst]
      · simpa using ho
    · rw [hw]
      rfl
  · intro r hr
    rw [list_swappable_slots, List.mem_insertionSort, List.mem_filterMap] at hr
    obtain ⟨e, hef, hfe⟩ := hr
    rw [List.mem_filter, Bool.and_eq_true] at hef
    obtain ⟨he, hst, ho⟩ := hef
    rw [Option.map_eq_some'] at hfe
    obtain ⟨w, hw, hwr⟩ := hfe
    rw [← hwr]
    refine ⟨he, by simpa using hst, by simpa using ho, w, hw, rfl⟩
  · exact List.sorted_insertionSort slotOrder _

/-- Witness instantiating C7 on `wdb4` for user 1 (event 11 owned by user 2
is visible, event 10 is the caller's). -/
theorem C7_list_swappable_witness :
    (∀ e ∈ wdb4.events, e.status = .SWAPPABLE → e.owner_id ≠ 1 →
      ∃ w, findUser wdb4 e.owner_id = some w ∧ (e, w.name) ∈ list_swappable_slots wdb4 1) ∧
    (∀ r ∈ list_swappable_slots wdb4 1,
      r.1 ∈ wdb4.events ∧ r.1.status = .SWAPPABLE ∧ r.1.owner_id ≠ 1 ∧
      ∃ w, findUser wdb4 r.1.owner_id = some w ∧ r.2 = w.name) ∧
    (list_swappable_slots wdb4 1).Sorted slotOrder :=
  @C7_list_swappable wdb4 1 (by decide)

/-- Inversion of the three-way join: a produced row carries the swap itself
and its resolved events and requester. -/
theorem joinSwap_some {db : DB} {s : SwapRequest} {row : SwapRow}
    (h : joinSwap db s = some row) :
    row.swap = s ∧ findEvent db s.offered_event_id = some row.offered_event ∧
    findEvent db s.requested_event_id = some row.requested_event ∧
    findUser db s.requester_id = some row.requester := by
  unfold joinSwap at h
  rcases hO : findEvent db s.offered_event_id with _ | O
  · rw [hO] at h
    simp at h
  · rcases hQ : findEvent db s.requested_event_id with _ | Q
    · rw [hO, hQ] at h
      simp at h
    · rcases hw : findUser db s.requester_id with _ | w
      · rw [hO, hQ, hw] at h
        simp at h
      · rw [hO, hQ, hw] at h
        simp only at h
        injection h with h2
        rw [← h2]
        exact ⟨rfl, rfl, rfl, rfl⟩

/-- C8: under referential integrity of swap references, listIncoming
returns exactly the PENDING requests whose requested slot is owned by the
caller, listOutgoing returns exactly the requests made by the caller (any
status), and both results are sorted by creation timestamp descending. -/
theorem C8_listings {db : DB} {u : UserId}
    (hint : ∀ s ∈ db.swaps, (joinSwap db s).isSome = true) :
    (∀ s ∈ db.swaps, s.status = .PENDING →
      ∀ Q : Event, findEvent db s.requested_event_id = some Q → Q.owner_id = u →
      ∃ row ∈ list_incoming_requests db u, row.swap = s) ∧
    (∀ row ∈ list_incoming_requests db u,
      row.swap ∈ db.swaps ∧ row.swap.status = .PENDING ∧
      findEvent db row.swap.requested_event_id = some row.requested_event ∧
      row.requested_event.owner_id = u) ∧
    (∀ s ∈ db.swaps, s.requester_id = u →
      ∃ row ∈ list_outgoing_requests db u, row.swap = s) ∧
    (∀ row ∈ list_outgoing_requests db u,
      row.swap ∈ db.swaps ∧ row.swap.requester_id = u) ∧
    (list_incoming_requests db u).Sorted createdDesc ∧
    (list_outgoing_requests db u).Sorted createdDesc := by
  refine ⟨?_, ?_, ?_, ?_, ?_, ?_⟩
  · intro s hs hp Q hQ hQo
    obtain ⟨row, hrow⟩ := Option.isSome_iff_exists.mp (hint s hs)
    obtain ⟨hrs, hro, hrq, hrw⟩ := joinSwap_some hrow
    have hQrow : row.requested_event = Q := by
      rw [hQ] at hrq
      injection hrq with h3
      exact h3.symm
    refine ⟨row, ?_, hrs⟩
    rw [list_incoming_requests, List.mem_insertionSort, List.mem_filter]
    refine ⟨List.mem_filterMap.mpr ⟨s, hs, hrow⟩, ?_⟩
    rw [Bool.and_eq_true]
    constructor
    · simp [hrs, hp]
    · simp [hQrow, hQo]
  · intro row hrow
    rw [list_incoming_requests, List.mem_insertionSort, List.mem_filter,
      Bool.and_eq_true] at hrow
    obtain ⟨hmem, hb1, hb2⟩ := hrow
    obtain ⟨s, hs, hjoin⟩ := List.mem_filterMap.mp hmem
    obtain ⟨hrs, hro, hrq, hrw⟩ := joinSwap_some hjoin
    refine ⟨by rw [hrs]; exact hs, by simpa using hb1, by rw [hrs]; exact hrq,
      by simpa using hb2⟩
  · intro s hs hreq
    obtain ⟨row, hrow⟩ := Option.isSome_iff_exists.mp (hint s hs)
    obtain ⟨hrs, hro, hrq, hrw⟩ := joinSwap_some hrow
    refine ⟨row, ?_, hrs⟩
    rw [list_outgoing_requests, List.mem_insertionSort, List.mem_filter]
    exact ⟨List.mem_filterMap.mpr ⟨s, hs, hrow⟩, by simp [hrs, hreq]⟩
  · intro row hrow
    rw [list_outgoing_requests, List.mem_insertionSort, List.mem_filter] at hrow
    obtain ⟨hmem, hb⟩ := hrow
    obtain ⟨s, hs, hjoin⟩ := List.mem_filterMap.mp hmem
    obtain ⟨hrs, hro, hrq, hrw⟩ := joinSwap_some hjoin
    exact ⟨by rw [hrs]; exact hs, by simpa using hb⟩
  · exact List.sorted_insertionSort createdDesc _
  · exact List.sorted_insertionSort createdDesc _

/-- Witness instantiating C8 on `wdb5` for user 2 (request 100 is incoming
for user 2 and outgoing for user 1). -/
theorem C8_listings_witness :
    (∀ s ∈ wdb5.swaps, s.status = .PENDING →
      ∀ Q : Event, findEvent wdb5 s.requested_event_id = some Q → Q.owner_id = 2 →
      ∃ row ∈ list_incoming_requests wdb5 2, row.swap = s) ∧
    (∀ row ∈ list_incoming_requests wdb5 2,
      row.swap ∈ wdb5.swaps ∧ row.swap.status = .PENDING ∧
      findEvent wdb5 row.swap.requested_event_id = some row.requested_event ∧
      row.requested_event.owner_id = 2) ∧
    (∀ s ∈ wdb5.swaps, s.requester_id = 2 →
      ∃ row ∈ list_outgoing_requests wdb5 2, row.swap = s) ∧
    (∀ row ∈ list_outgoing_requests wdb5 2,
      row.swap ∈ wdb5.swaps ∧ row.swap.requester_id = 2) ∧
    (list_incoming_requests wdb5 2).Sorted createdDesc ∧
    (list_outgoing_requests wdb5 2).Sorted createdDesc :=
  @C8_listings wdb5 2 (by decide)

end SlotaSwapper
